import Mathlib

/-!
Verification of the analytics core of the zentra trading backend.

The JavaScript analytics service (src/services/analysis.service.js and the
dashboard service) is shallowly embedded here.  JS numbers are modelled as
exact rationals; JS strings as String; a JS computation that can throw a
TypeError (Array.prototype.reduce on an empty array with no initial value)
is modelled with Option, returning none exactly where the original throws.
Wall-clock fields (lastUpdated) are omitted: they carry no analysable data.
-/

namespace Zentra

/-- JS Math.round: round half toward positive infinity. -/
def jsRound (q : ℚ) : Int := ⌊q + 1/2⌋

/-- JS Math.round(q * 100) / 100: rounding to two decimal places. -/
def jsRound2 (q : ℚ) : ℚ := (jsRound (q * 100) : ℚ) / 100

/-- JS Math.round(Math.sqrt v) for a nonnegative rational v, computed with
integer arithmetic: the unique k with (2k-1)^2 <= 4v < (2k+1)^2. -/
def jsRoundSqrt (v : ℚ) : ℕ := (Nat.sqrt (Int.toNat ⌊4 * v⌋) + 1) / 2

/-- Least n with n^2 >= m. -/
def ceilSqrtNat (m : ℕ) : ℕ :=
  let s := Nat.sqrt m
  if s * s = m then s else s + 1

/-- JS Math.round(t / Math.sqrt v) for rational t and positive rational v,
computed with integer arithmetic (used only for the simplified Sharpe ratio). -/
def jsRoundDivSqrt (t v : ℚ) : Int :=
  if 0 ≤ t then ((Nat.sqrt (Int.toNat ⌊4 * t ^ 2 / v⌋) + 1) / 2 : ℕ)
  else -((ceilSqrtNat (Int.toNat ⌈4 * t ^ 2 / v⌉) / 2 : ℕ) : Int)

/-- JS String.prototype.toUpperCase restricted to ASCII. -/
def jsToUpperCase (s : String) : String := s.map Char.toUpper

/-- A trade record as consumed by the analytics core (numeric fields are the
JS numbers used by the analysis functions; entryTime is an epoch instant). -/
structure Trade where
  id : Int
  entryTime : Int
  profitLoss : ℚ
  riskPercentUsed : ℚ
  riskRewardAchieved : ℚ
  targetPercentAchieved : ℚ
  session : String
  stopLossHit : Bool
  exitedEarly : Bool
deriving Repr, DecidableEq

/-- Result of analyzePsychologicalState (the wall-clock lastUpdated field is
omitted). -/
structure PsychResult where
  state : String
  confidence : Int
  riskTolerance : Int
  emotionalBalance : Int
  recommendations : List String
deriving Repr, DecidableEq

/-- Local const winRate of analyzePsychologicalState:
(winningTrades / totalTrades) * 100, guarded by totalTrades > 0. -/
def winRateOf (trades : List Trade) : ℚ :=
  let totalTrades := trades.length
  let winningTrades := (trades.filter (fun t => 0 < t.profitLoss)).length
  if 0 < totalTrades then ((winningTrades : ℚ) / totalTrades) * 100 else 0

/-- Local const avgRiskUsed: mean riskPercentUsed (reduce with + then divide). -/
def avgRiskUsedOf (trades : List Trade) : ℚ :=
  (trades.foldl (fun s t => s + t.riskPercentUsed) 0) / trades.length

/-- Local const avgTargetAchieved: mean targetPercentAchieved. -/
def avgTargetAchievedOf (trades : List Trade) : ℚ :=
  (trades.foldl (fun s t => s + t.targetPercentAchieved) 0) / trades.length

/-- analyzePsychologicalState from src/services/analysis.service.js: the
rule cascade mutating state/confidence/riskTolerance/emotionalBalance is
modelled by successive lets, one per JS assignment, in source order. -/
def analyzePsychologicalState (trades : List Trade) : PsychResult :=
  if trades.isEmpty then
    { state := "NEUTRAL", confidence := 50, riskTolerance := 50,
      emotionalBalance := 50,
      recommendations := ["Start trading to build psychological profile"] }
  else
    let totalTrades : ℕ := trades.length
    let winRate := winRateOf trades
    let avgRiskUsed := avgRiskUsedOf trades
    let avgTargetAchieved := avgTargetAchievedOf trades
    -- win-rate rule
    let state1 : String :=
      if 70 ≤ winRate then "CONFIDENT"
      else if winRate ≤ 30 then "FRUSTRATED" else "NEUTRAL"
    let confidence1 : ℚ :=
      if 70 ≤ winRate then min 95 (50 + (winRate - 50) * (9/10))
      else if winRate ≤ 30 then max 20 (50 - (50 - winRate) * (6/10)) else 50
    let riskTolerance1 : ℚ :=
      if 70 ≤ winRate then min 80 (50 + (winRate - 50) * (6/10))
      else if winRate ≤ 30 then max 20 (50 - (50 - winRate) * (6/10)) else 50
    -- risk-usage rule (may overwrite the state set above)
    let state2 : String :=
      if 3 < avgRiskUsed then "GREEDY"
      else if avgRiskUsed < 1 then "FEARFUL" else state1
    let riskTolerance2 : ℚ :=
      if 3 < avgRiskUsed then min 90 (riskTolerance1 + 20)
      else if avgRiskUsed < 1 then max 10 (riskTolerance1 - 20)
      else riskTolerance1
    let recs1 : List String :=
      if 3 < avgRiskUsed then ["Reduce risk per trade"]
      else if avgRiskUsed < 1 then ["Consider increasing position size gradually"]
      else []
    -- discipline rules
    let earlyExits : ℕ := (trades.filter (fun t => t.exitedEarly)).length
    let stopLossHits : ℕ := (trades.filter (fun t => t.stopLossHit)).length
    let emotionalBalance1 : ℚ :=
      if 3/10 < (earlyExits : ℚ) / totalTrades then max 30 (50 - 20) else 50
    let recs2 : List String := recs1 ++
      (if 3/10 < (earlyExits : ℚ) / totalTrades
       then ["Work on holding profitable trades longer"] else [])
    let emotionalBalance2 : ℚ :=
      if 2/5 < (stopLossHits : ℚ) / totalTrades
      then max 30 (emotionalBalance1 - 15) else emotionalBalance1
    let recs3 : List String := recs2 ++
      (if 2/5 < (stopLossHits : ℚ) / totalTrades
       then ["Review entry strategies and market analysis"] else [])
    -- target achievement
    let recs4 : List String := recs3 ++
      (if avgTargetAchieved < 50
       then ["Improve trade management and target setting"] else [])
    let recs5 : List String :=
      if recs4.isEmpty then ["Continue current trading approach"] else recs4
    { state := state2, confidence := jsRound confidence1,
      riskTolerance := jsRound riskTolerance2,
      emotionalBalance := jsRound emotionalBalance2,
      recommendations := recs5 }

/-- A weighted factor in a session forecast. -/
structure ForecastFactor where
  factor : String
  impact : String
  weight : ℚ
deriving Repr, DecidableEq

/-- Result of analyzeSessionForecast. -/
structure ForecastResult where
  session : String
  forecast : String
  probability : ℚ
  factors : List ForecastFactor
  recommendations : List String
deriving Repr, DecidableEq

/-- Local const winRate of analyzeSessionForecast (no emptiness guard:
the function only reaches it on a non-empty list). -/
def sessionWinRateOf (trades : List Trade) : ℚ :=
  (((trades.filter (fun t => 0 < t.profitLoss)).length : ℚ) / trades.length) * 100

/-- Local const avgProfit of analyzeSessionForecast. -/
def avgProfitOf (trades : List Trade) : ℚ :=
  (trades.foldl (fun s t => s + t.profitLoss) 0) / trades.length

/-- Local const avgRisk of analyzeSessionForecast. -/
def avgRiskOf (trades : List Trade) : ℚ :=
  (trades.foldl (fun s t => s + t.riskPercentUsed) 0) / trades.length

/-- analyzeSessionForecast from src/services/analysis.service.js; the three
probability mutations are modelled by the lets prob1/prob2/prob3. -/
def analyzeSessionForecast (trades : List Trade) (session : String) : ForecastResult :=
  if trades.isEmpty then
    { session := jsToUpperCase session, forecast := "NEUTRAL", probability := 50,
      factors := [{ factor := "No historical data", impact := "NEUTRAL", weight := 1 }],
      recommendations := ["Start trading this session to build forecast data"] }
  else
    let winRate := sessionWinRateOf trades
    let avgProfit := avgProfitOf trades
    let avgRisk := avgRiskOf trades
    let factors1 : List ForecastFactor :=
      if 60 ≤ winRate then
        [{ factor := "Historical win rate", impact := "POSITIVE", weight := 2/5 }]
      else if winRate ≤ 40 then
        [{ factor := "Historical win rate", impact := "NEGATIVE", weight := 2/5 }]
      else []
    let prob1 : ℚ := if 60 ≤ winRate then 50 + 20
      else if winRate ≤ 40 then 50 - 20 else 50
    let factors2 : List ForecastFactor := factors1 ++
      (if 0 < avgProfit then
        [{ factor := "Average profitability", impact := "POSITIVE", weight := 3/10 }]
       else
        [{ factor := "Average profitability", impact := "NEGATIVE", weight := 3/10 }])
    let prob2 : ℚ := if 0 < avgProfit then prob1 + 15 else prob1 - 15
    let factors3 : List ForecastFactor := factors2 ++
      (if avgRisk ≤ 2 then
        [{ factor := "Risk management", impact := "POSITIVE", weight := 3/10 }]
       else
        [{ factor := "Risk management", impact := "NEGATIVE", weight := 3/10 }])
    let prob3 : ℚ := if avgRisk ≤ 2 then prob2 + 10 else prob2 - 10
    let forecast : String :=
      if 65 ≤ prob3 then "POSITIVE" else if prob3 ≤ 35 then "NEGATIVE" else "NEUTRAL"
    let recommendations : List String :=
      if forecast = "POSITIVE" then
        ["Consider increasing position size", "Focus on high-probability setups"]
      else if forecast = "NEGATIVE" then
        ["Reduce position sizes", "Be more selective with entries"]
      else
        ["Trade with normal position sizes", "Monitor market conditions closely"]
    { session := jsToUpperCase session, forecast := forecast,
      probability := max 0 (min 100 prob3),
      factors := factors3, recommendations := recommendations }

/-- The win-rate adjustment the forecaster adds to the base probability. -/
def winAdjOf (trades : List Trade) : ℚ :=
  if 60 ≤ sessionWinRateOf trades then 20
  else if sessionWinRateOf trades ≤ 40 then -20 else 0

/-- The profitability adjustment the forecaster adds to the base probability. -/
def profitAdjOf (trades : List Trade) : ℚ :=
  if 0 < avgProfitOf trades then 15 else -15

/-- The risk-management adjustment the forecaster adds to the base probability. -/
def riskAdjOf (trades : List Trade) : ℚ :=
  if avgRiskOf trades ≤ 2 then 10 else -10

/-- The probability accumulated by analyzeSessionForecast before the final
clamp into [0, 100]. -/
def rawProbability (trades : List Trade) : ℚ :=
  50 + winAdjOf trades + profitAdjOf trades + riskAdjOf trades

/-- A single performance insight. -/
structure Insight where
  type : String
  description : String
  confidence : Int
  impact : String
deriving Repr, DecidableEq

/-- A detected behavioural pattern. -/
structure TradePattern where
  pattern : String
  frequency : Int
  correlation : ℚ
deriving Repr, DecidableEq

/-- Result of analyzePerformanceInsights. -/
structure InsightsResult where
  period : String
  insights : List Insight
  patterns : List TradePattern
  recommendations : List String
deriving Repr, DecidableEq

/-- Key list of a JS object built by successive `obj[k] = (obj[k] || 0) + 1`
insertions: Object.keys returns the non-integer-like string keys in first
insertion order. -/
def firstOccurKeys (l : List String) : List String :=
  l.foldl (fun ks s => if s ∈ ks then ks else ks ++ [s]) []

/-- JS Array.prototype.reduce((a, b) => f a > f b ? a : b) with no initial
value: none models the TypeError thrown on an empty array. -/
def jsReduceMax (f : String → ℕ) : List String → Option String
  | [] => none
  | a :: l => some (l.foldl (fun x y => if f y < f x then x else y) a)

/-- Local const bestSession of analyzePerformanceInsights: reduce over
Object.keys(sessionCounts) picking the key with the larger count. -/
def bestSessionOf (trades : List Trade) : Option String :=
  jsReduceMax (fun s => (trades.map Trade.session).count s)
    (firstOccurKeys (trades.map Trade.session))

/-- Local const avgRiskReward of analyzePerformanceInsights. -/
def avgRiskRewardOf (trades : List Trade) : ℚ :=
  (trades.foldl (fun s t => s + t.riskRewardAchieved) 0) / trades.length

/-- analyzePerformanceInsights from src/services/analysis.service.js.
The bestSession reduce throws on an empty key set, hence the Option result
(the key set is provably non-empty whenever the trade list is). -/
def analyzePerformanceInsights (trades : List Trade) (period : String) :
    Option InsightsResult :=
  if trades.isEmpty then
    some { period := period,
           insights := [{ type := "OPPORTUNITY",
                          description := "No trading data available for analysis",
                          confidence := 100, impact := "LOW" }],
           patterns := [],
           recommendations := ["Start trading to generate performance insights"] }
  else
    let totalTrades : ℕ := trades.length
    let winRate := sessionWinRateOf trades
    let avgRisk := avgRiskOf trades
    let avgRiskReward := avgRiskRewardOf trades
    let insights1 : List Insight :=
      if 70 ≤ winRate then
        [{ type := "STRENGTH",
           description := "Excellent win rate indicates strong market analysis skills",
           confidence := jsRound winRate, impact := "HIGH" }]
      else if winRate ≤ 30 then
        [{ type := "WEAKNESS",
           description := "Low win rate suggests need for better entry strategies",
           confidence := jsRound (100 - winRate), impact := "HIGH" }]
      else []
    let recsA : List String :=
      if 70 ≤ winRate then []
      else if winRate ≤ 30 then ["Review entry criteria and market analysis"] else []
    let insights2 : List Insight := insights1 ++
      (if avgRisk ≤ 2 then
        [{ type := "STRENGTH",
           description := "Consistent risk management shows good discipline",
           confidence := 85, impact := "HIGH" }]
       else if 3 < avgRisk then
        [{ type := "WEAKNESS",
           description := "High risk per trade may lead to account blowouts",
           confidence := 80, impact := "HIGH" }]
       else [])
    let recsB : List String := recsA ++
      (if avgRisk ≤ 2 then []
       else if 3 < avgRisk then ["Reduce risk per trade to protect capital"] else [])
    let insights3 : List Insight := insights2 ++
      (if 3/2 ≤ avgRiskReward then
        [{ type := "STRENGTH",
           description := "Good risk-reward ratios maximize profit potential",
           confidence := 75, impact := "MEDIUM" }]
       else if avgRiskReward < 1 then
        [{ type := "WEAKNESS",
           description := "Poor risk-reward ratios limit profit potential",
           confidence := 70, impact := "MEDIUM" }]
       else [])
    let recsC : List String := recsB ++
      (if 3/2 ≤ avgRiskReward then []
       else if avgRiskReward < 1 then ["Focus on trades with better risk-reward ratios"]
       else [])
    let earlyExits : ℕ := (trades.filter (fun t => t.exitedEarly)).length
    let stopLossHits : ℕ := (trades.filter (fun t => t.stopLossHit)).length
    let patterns1 : List TradePattern :=
      if 3/10 < (earlyExits : ℚ) / totalTrades then
        [{ pattern := "Early exit on profitable trades",
           frequency := jsRound (((earlyExits : ℚ) / totalTrades) * 100),
           correlation := -(3/10) }]
      else []
    let recsD : List String := recsC ++
      (if 3/10 < (earlyExits : ℚ) / totalTrades
       then ["Practice holding winners longer"] else [])
    let patterns2 : List TradePattern := patterns1 ++
      (if 2/5 < (stopLossHits : ℚ) / totalTrades then
        [{ pattern := "Frequent stop loss hits",
           frequency := jsRound (((stopLossHits : ℚ) / totalTrades) * 100),
           correlation := -(1/2) }]
       else [])
    let recsE : List String := recsD ++
      (if 2/5 < (stopLossHits : ℚ) / totalTrades
       then ["Improve entry timing and market analysis"] else [])
    match bestSessionOf trades with
    | none => none
    | some bestSession =>
      let insights4 : List Insight := insights3 ++
        (if 1/2 < (((trades.map Trade.session).count bestSession : ℚ) / totalTrades) then
          [{ type := "OPPORTUNITY",
             description := "Strong performance in " ++ bestSession ++ " session",
             confidence := 70, impact := "MEDIUM" }]
         else [])
      let recsF : List String :=
        if recsE.isEmpty then
          ["Continue current trading approach", "Monitor performance metrics regularly"]
        else recsE
      some { period := period, insights := insights4, patterns := patterns2,
             recommendations := recsF }

/-- Pure content of the service wrapper getPerformanceInsights: after the
data-access layer fetches the trades of the period, the wrapper returns the
result of analyzePerformanceInsights unchanged. -/
def getPerformanceInsightsCore (periodTrades : List Trade) (period : String) :
    Option InsightsResult :=
  analyzePerformanceInsights periodTrades period

/-- getStateTrigger from src/services/analysis.service.js. -/
def getStateTrigger (trade : Trade) : String :=
  if 0 < trade.profitLoss then "Profitable trade"
  else if trade.profitLoss < 0 then "Losing trade"
  else if trade.exitedEarly then "Early exit"
  else if trade.stopLossHit then "Stop loss hit"
  else "Trade execution"

/-- One recorded state-change event of analyzeStateHistory. -/
structure HistoryEntry where
  timestamp : Int
  state : String
  confidence : Int
  trigger : String
  ctxTradeId : Int
  ctxProfitLoss : ℚ
  ctxRiskPercentUsed : ℚ
deriving Repr, DecidableEq

/-- Summary block of a StateHistoryResult. -/
structure HistorySummary where
  totalChanges : ℕ
  mostCommonState : String
  averageConfidence : Int
  volatility : ℚ
deriving Repr, DecidableEq

/-- Result of analyzeStateHistory. -/
structure StateHistoryResult where
  history : List HistoryEntry
  summary : HistorySummary
deriving Repr, DecidableEq

/-- Stable insertion of a trade into a list sorted ascending by entryTime. -/
def insertByTime (x : Trade) : List Trade → List Trade
  | [] => [x]
  | h :: t => if h.entryTime ≤ x.entryTime then h :: insertByTime x t else x :: h :: t

/-- Stable sort ascending by entryTime, modelling
trades.sort((a, b) => new Date(a.entryTime) - new Date(b.entryTime)). -/
def sortByEntryTime : List Trade → List Trade
  | [] => []
  | h :: t => insertByTime h (sortByEntryTime t)

/-- Accumulator of the main loop of analyzeStateHistory: history entries,
recorded states, recorded confidences, stateChangeCount. -/
structure HistoryAcc where
  hist : List HistoryEntry
  states : List String
  confs : List Int
  lastState : Option PsychResult
  count : ℕ
deriving Repr

/-- The sliding window sortedTrades.slice(Math.max(0, i - 4), i + 1). -/
def windowAt (sorted : List Trade) (i : ℕ) : List Trade :=
  (sorted.take (i + 1)).drop (i - 4)

/-- Main loop of analyzeStateHistory: for each index i while
history.length < limit, classify the window of the last up-to-5 trades and
record an event on the first trade, a state change, or a confidence jump
of more than 15. -/
def historyLoop (sorted : List Trade) (limit : Int) :
    ℕ → List Trade → HistoryAcc → HistoryAcc
  | _, [], acc => acc
  | i, trade :: rest, acc =>
    if (acc.hist.length : Int) < limit then
      let recentTrades := windowAt sorted i
      let state := analyzePsychologicalState recentTrades
      let record : Bool :=
        match acc.lastState with
        | none => true
        | some ls =>
          decide (ls.state ≠ state.state) ||
            decide (15 < (ls.confidence - state.confidence).natAbs)
      if record then
        historyLoop sorted limit (i + 1) rest
          { hist := acc.hist ++
              [{ timestamp := trade.entryTime, state := state.state,
                 confidence := state.confidence, trigger := getStateTrigger trade,
                 ctxTradeId := trade.id, ctxProfitLoss := trade.profitLoss,
                 ctxRiskPercentUsed := trade.riskPercentUsed }],
            states := acc.states ++ [state.state],
            confs := acc.confs ++ [state.confidence],
            lastState := some state,
            count := acc.count + 1 }
      else
        historyLoop sorted limit (i + 1) rest acc
    else acc

/-- The loop of analyzeStateHistory run from its initial accumulator. -/
def historyData (trades : List Trade) (limit : Int) : HistoryAcc :=
  let sorted := sortByEntryTime trades
  historyLoop sorted limit 0 sorted
    { hist := [], states := [], confs := [], lastState := none, count := 0 }

/-- The confidences of the recorded events of analyzeStateHistory. -/
def recordedConfs (trades : List Trade) (limit : Int) : List Int :=
  (historyData trades limit).confs

/-- The states of the recorded events of analyzeStateHistory. -/
def recordedStates (trades : List Trade) (limit : Int) : List String :=
  (historyData trades limit).states

/-- Local const averageConfidence of analyzeStateHistory: rounded mean of
the recorded confidences, 50 when none were recorded. -/
def averageConfidenceOf (confs : List Int) : Int :=
  if 0 < confs.length then
    jsRound ((confs.foldl (fun s c => s + (c : ℚ)) 0) / confs.length)
  else 50

/-- Local const variance of analyzeStateHistory: mean squared deviation of
the recorded confidences from averageConfidence (the rounded mean). -/
def varianceOf (confs : List Int) : ℚ :=
  if 0 < confs.length then
    (confs.foldl (fun s c => s + ((c : ℚ) - averageConfidenceOf confs) ^ 2) 0) /
      confs.length
  else 0

/-- analyzeStateHistory from src/services/analysis.service.js.  The
mostCommonState reduce has no initial value, so with no recorded events
(non-empty trades with limit <= 0) the original throws: modelled as none. -/
def analyzeStateHistory (trades : List Trade) (limit : Int) :
    Option StateHistoryResult :=
  if trades.isEmpty then
    some { history := [],
           summary := { totalChanges := 0, mostCommonState := "NEUTRAL",
                        averageConfidence := 50, volatility := 0 } }
  else
    let acc := historyData trades limit
    match jsReduceMax (fun s => acc.states.count s) (firstOccurKeys acc.states) with
    | none => none
    | some mostCommonState =>
      some { history := acc.hist.take limit.toNat,
             summary := { totalChanges := acc.count,
                          mostCommonState := mostCommonState,
                          averageConfidence := averageConfidenceOf acc.confs,
                          volatility := (jsRoundSqrt (varianceOf acc.confs) : ℚ) / 100 } }

/-- Result of calculateRiskMetrics from the dashboard service. -/
structure RiskMetrics where
  averageRiskPerTrade : ℚ
  maxDrawdown : ℚ
  sharpeRatio : ℚ
deriving Repr, DecidableEq

/-- One step of the drawdown loop of calculateRiskMetrics: state is
(peak, maxDrawdown, runningPnL). -/
def drawdownStep (s : ℚ × ℚ × ℚ) (pl : ℚ) : ℚ × ℚ × ℚ :=
  let runningPnL := s.2.2 + pl
  let peak := if s.1 < runningPnL then runningPnL else s.1
  let drawdown := peak - runningPnL
  (peak, if s.2.1 < drawdown then drawdown else s.2.1, runningPnL)

/-- The maxDrawdown accumulator of calculateRiskMetrics after the loop over
the profitLoss values in given order, starting from peak 0, maxDrawdown 0,
runningPnL 0. -/
def maxDrawdownRaw (pls : List ℚ) : ℚ := (pls.foldl drawdownStep (0, 0, 0)).2.1

/-- Population variance of a list of rationals (mean computed exactly). -/
def popVariance (vals : List ℚ) : ℚ :=
  let avg := vals.sum / vals.length
  (vals.map (fun v => (v - avg) ^ 2)).sum / vals.length

/-- calculateRiskMetrics from the dashboard service.  The Sharpe ratio
divides the mean P&L by its population standard deviation; its 2-decimal
rounding is computed exactly via jsRoundDivSqrt. -/
def calculateRiskMetrics (trades : List Trade) : RiskMetrics :=
  if trades.isEmpty then
    { averageRiskPerTrade := 0, maxDrawdown := 0, sharpeRatio := 0 }
  else
    let averageRiskPerTrade :=
      (trades.foldl (fun s t => s + t.riskPercentUsed) (0 : ℚ)) / trades.length
    let maxDrawdown := maxDrawdownRaw (trades.map Trade.profitLoss)
    let returns := trades.map Trade.profitLoss
    let avgReturn := (returns.foldl (fun s r => s + r) (0 : ℚ)) / returns.length
    let variance :=
      (returns.foldl (fun s r => s + (r - avgReturn) ^ 2) (0 : ℚ)) / returns.length
    let sharpeRounded : ℚ :=
      if 0 < variance then ((jsRoundDivSqrt (100 * avgReturn) variance : ℚ) / 100)
      else 0
    { averageRiskPerTrade := jsRound2 averageRiskPerTrade,
      maxDrawdown := jsRound2 maxDrawdown,
      sharpeRatio := sharpeRounded }

/-- Cumulative P&L totals after each trade, in given order: the running
totals the spec describes for maxDrawdown. -/
def runningSums (pls : List ℚ) : List ℚ :=
  (List.range pls.length).map (fun i => (pls.take (i + 1)).sum)

/-- The drawdown observed at step i per the spec: the running peak (started
at 0) up to step i minus the running total at step i. -/
def drawdownsSpec (pls : List ℚ) : List ℚ :=
  (List.range pls.length).map
    (fun i => ((runningSums pls).take (i + 1)).foldl max 0 - (pls.take (i + 1)).sum)

/-- Spec reading of maxDrawdown: the maximum drawdown observed over the
steps, in given order (0 when no step). -/
def maxDrawdownSpec (pls : List ℚ) : ℚ := (drawdownsSpec pls).foldl max 0

/-- Spec reading of a count-maximising tie-break where the last encountered
key wins: scanning the keys from the end, the first whose count is greater
than or equal to every count. -/
def lastArgmax (f : String → ℕ) (l : List String) : Option String :=
  l.reverse.find? (fun x => l.all (fun y => f y ≤ f x))

/-- Population variance of recorded confidences about the exact arithmetic
mean, as the spec describes volatility. -/
def confVarianceExact (confs : List Int) : ℚ :=
  popVariance (confs.map (fun c => (c : ℚ)))

/-- Population variance of recorded confidences about the rounded mean
(the averageConfidence integer), as the code computes it. -/
def confVarianceRounded (confs : List Int) : ℚ :=
  let avg : Int := jsRound ((confs.map (fun c => (c : ℚ))).sum / confs.length)
  ((confs.map (fun c => ((c : ℚ) - avg) ^ 2)).sum) / confs.length

/-- Volatility formula of the spec applied to a variance value: the
2-decimal rounding of sqrt(variance) / 100, computed exactly. -/
def volatilityFromVariance (v : ℚ) : ℚ := (jsRoundSqrt v : ℚ) / 100

/-! Helper lemmas. -/

/-- Characterisation of Nat.sqrt used to evaluate it on literals. -/
lemma natSqrt_eq {m k : ℕ} (h1 : k * k ≤ m) (h2 : m < (k + 1) * (k + 1)) :
    Nat.sqrt m = k :=
  Nat.le_antisymm (Nat.lt_succ_iff.mp (Nat.sqrt_lt.mpr h2)) (Nat.le_sqrt.mpr h1)

/-- Lower bound transfer for jsRound. -/
lemma le_jsRound {a : Int} {x : ℚ} (h : (a : ℚ) ≤ x) : a ≤ jsRound x := by
  unfold jsRound
  exact Int.le_floor.mpr (by linarith)

/-- Upper bound transfer for jsRound. -/
lemma jsRound_le {b : Int} {x : ℚ} (h : x ≤ (b : ℚ)) : jsRound x ≤ b := by
  unfold jsRound
  have : x + 1/2 < (b : ℚ) + 1 := by linarith
  exact Int.le_of_lt_add_one (Int.floor_lt.mpr (by push_cast; linarith))

/-- A foldl accumulating a projection equals the sum of the mapped list. -/
lemma foldl_add_map {α : Type} (f : α → ℚ) :
    ∀ (l : List α) (a : ℚ), l.foldl (fun s t => s + f t) a = a + (l.map f).sum
  | [], a => by simp
  | x :: l, a => by
    rw [List.foldl_cons, foldl_add_map f l (a + f x)]
    simp [add_assoc]

/-- The win rate of a non-empty trade list lies in [0, 100]. -/
lemma winRateOf_mem (trades : List Trade) (h : trades ≠ []) :
    0 ≤ winRateOf trades ∧ winRateOf trades ≤ 100 := by
  unfold winRateOf
  have hlen : 0 < trades.length := List.length_pos.mpr h
  have hle : (trades.filter (fun t => 0 < t.profitLoss)).length ≤ trades.length :=
    List.length_filter_le _ _
  rw [if_pos hlen]
  constructor
  · positivity
  · have h1 : ((trades.filter (fun t => 0 < t.profitLoss)).length : ℚ) ≤
        (trades.length : ℚ) := by exact_mod_cast hle
    have h2 : (0 : ℚ) < (trades.length : ℚ) := by exact_mod_cast hlen
    rw [div_mul_eq_mul_div, div_le_iff₀ h2]
    nlinarith

/-! Concrete fixtures used by witnesses and counterexamples. -/

/-- A single all-winning trade with 5 percent risk. -/
def tradeA : Trade := ⟨1, 1, 100, 5, 2, 100, "NY", false, false⟩

/-- A single losing trade with 0.5 percent risk. -/
def tradeB : Trade := ⟨2, 1, -50, 1/2, 0, 0, "NY", false, false⟩

/-! Claim C1. -/

/-- C1: in the State Classifier the risk-usage rule runs after the win-rate
rule and overwrites its state.  Any trade list with winRate 100 and
avgRiskUsed 5 yields state GREEDY (not CONFIDENT) with riskTolerance above
50 and a "Reduce risk per trade" recommendation; any trade list with
winRate 0 and avgRiskUsed 0.5 ends in state FEARFUL (the FRUSTRATED
classification set first is overwritten). -/
theorem stateClassifier_rule_precedence (trades : List Trade) (hne : trades ≠ []) :
    (winRateOf trades = 100 → avgRiskUsedOf trades = 5 →
      (analyzePsychologicalState trades).state = "GREEDY" ∧
      50 < (analyzePsychologicalState trades).riskTolerance ∧
      "Reduce risk per trade" ∈ (analyzePsychologicalState trades).recommendations) ∧
    (winRateOf trades = 0 → avgRiskUsedOf trades = 1/2 →
      (analyzePsychologicalState trades).state = "FEARFUL") := by
  have hne2 : trades.isEmpty = false := by simpa [List.isEmpty_iff] using hne
  constructor
  · intro h1 h2
    simp only [analyzePsychologicalState, hne2, Bool.false_eq_true, if_false, h1, h2]
    norm_num [jsRound]
  · intro h1 h2
    simp only [analyzePsychologicalState, hne2, Bool.false_eq_true, if_false, h1, h2]
    norm_num

/-- Witness for C1 at one winning trade (risk 5) and one losing trade
(risk 0.5). -/
theorem stateClassifier_rule_precedence_witness :
    ((analyzePsychologicalState [tradeA]).state = "GREEDY" ∧
     50 < (analyzePsychologicalState [tradeA]).riskTolerance ∧
     "Reduce risk per trade" ∈ (analyzePsychologicalState [tradeA]).recommendations) ∧
    (analyzePsychologicalState [tradeB]).state = "FEARFUL" :=
  ⟨(stateClassifier_rule_precedence [tradeA] (by simp)).1
      (by norm_num [winRateOf, tradeA]) (by norm_num [avgRiskUsedOf, tradeA]),
   (stateClassifier_rule_precedence [tradeB] (by simp)).2
      (by norm_num [winRateOf, tradeB]) (by norm_num [avgRiskUsedOf, tradeB])⟩

/-! Claim C4. -/

/-- C4: for every trade list the State Classifier returns confidence,
riskTolerance and emotionalBalance as integers in [0, 100] (integrality is
the Int result type of the rounding), and for every trade list and session
the Session Forecaster returns a probability in [0, 100] after clamping. -/
theorem scores_bounded (trades : List Trade) (session : String) :
    (0 ≤ (analyzePsychologicalState trades).confidence ∧
      (analyzePsychologicalState trades).confidence ≤ 100) ∧
    (0 ≤ (analyzePsychologicalState trades).riskTolerance ∧
      (analyzePsychologicalState trades).riskTolerance ≤ 100) ∧
    (0 ≤ (analyzePsychologicalState trades).emotionalBalance ∧
      (analyzePsychologicalState trades).emotionalBalance ≤ 100) ∧
    (0 ≤ (analyzeSessionForecast trades session).probability ∧
      (analyzeSessionForecast trades session).probability ≤ 100) := by
  by_cases hne : trades = []
  · subst hne
    norm_num [analyzePsychologicalState, analyzeSessionForecast]
  · have hne2 : trades.isEmpty = false := by simpa [List.isEmpty_iff] using hne
    obtain ⟨hw0, hw1⟩ := winRateOf_mem trades hne
    refine ⟨⟨?_, ?_⟩, ⟨?_, ?_⟩, ⟨?_, ?_⟩, ?_, ?_⟩ <;>
      simp only [analyzePsychologicalState, analyzeSessionForecast, hne2,
        Bool.false_eq_true, if_false]
    · exact le_jsRound (by push_cast; simp only [min_def, max_def]; split_ifs <;> linarith)
    · exact jsRound_le (by push_cast; simp only [min_def, max_def]; split_ifs <;> linarith)
    · exact le_jsRound (by push_cast; simp only [min_def, max_def]; split_ifs <;> linarith)
    · exact jsRound_le (by push_cast; simp only [min_def, max_def]; split_ifs <;> linarith)
    · exact le_jsRound (by push_cast; simp only [min_def, max_def]; split_ifs <;> linarith)
    · exact jsRound_le (by push_cast; simp only [min_def, max_def]; split_ifs <;> linarith)
    · exact le_max_left 0 _
    · exact max_le (by norm_num) ((min_le_left _ _).trans (by norm_num))

/-! Claim C8. -/

/-- C8: for a non-empty trade list the forecast probability before the
final clamp is 50 plus a win-rate adjustment of 20, 0 or -20, a profit
adjustment of 15 or -15 and a risk adjustment of 10 or -10, hence lies in
[5, 95], and the clamp into [0, 100] never changes the returned value. -/
theorem forecast_clamp_noop (trades : List Trade) (session : String)
    (hne : trades ≠ []) :
    (winAdjOf trades = 20 ∨ winAdjOf trades = 0 ∨ winAdjOf trades = -20) ∧
    (profitAdjOf trades = 15 ∨ profitAdjOf trades = -15) ∧
    (riskAdjOf trades = 10 ∨ riskAdjOf trades = -10) ∧
    5 ≤ rawProbability trades ∧ rawProbability trades ≤ 95 ∧
    (analyzeSessionForecast trades session).probability = rawProbability trades := by
  have hne2 : trades.isEmpty = false := by simpa [List.isEmpty_iff] using hne
  have hw : winAdjOf trades = 20 ∨ winAdjOf trades = 0 ∨ winAdjOf trades = -20 := by
    unfold winAdjOf; split_ifs <;> simp
  have hp : profitAdjOf trades = 15 ∨ profitAdjOf trades = -15 := by
    unfold profitAdjOf; split_ifs <;> simp
  have hr : riskAdjOf trades = 10 ∨ riskAdjOf trades = -10 := by
    unfold riskAdjOf; split_ifs <;> simp
  have hlo : 5 ≤ rawProbability trades := by
    unfold rawProbability
    rcases hw with h | h | h <;> rcases hp with h2 | h2 <;> rcases hr with h3 | h3 <;>
      rw [h, h2, h3] <;> norm_num
  have hhi : rawProbability trades ≤ 95 := by
    unfold rawProbability
    rcases hw with h | h | h <;> rcases hp with h2 | h2 <;> rcases hr with h3 | h3 <;>
      rw [h, h2, h3] <;> norm_num
  refine ⟨hw, hp, hr, hlo, hhi, ?_⟩
  have hraw : (analyzeSessionForecast trades session).probability =
      max 0 (min 100 (rawProbability trades)) := by
    simp only [analyzeSessionForecast, hne2, Bool.false_eq_true, if_false,
      rawProbability, winAdjOf, profitAdjOf, riskAdjOf]
    split_ifs <;> norm_num
  rw [hraw, min_eq_right (by linarith), max_eq_right (by linarith)]

/-- Witness for C8 at a single winning trade. -/
theorem forecast_clamp_noop_witness :
    ([tradeA] ≠ []) ∧
    ((winAdjOf [tradeA] = 20 ∨ winAdjOf [tradeA] = 0 ∨ winAdjOf [tradeA] = -20) ∧
     (profitAdjOf [tradeA] = 15 ∨ profitAdjOf [tradeA] = -15) ∧
     (riskAdjOf [tradeA] = 10 ∨ riskAdjOf [tradeA] = -10) ∧
     5 ≤ rawProbability [tradeA] ∧ rawProbability [tradeA] ≤ 95 ∧
     (analyzeSessionForecast [tradeA] "ny").probability = rawProbability [tradeA]) :=
  ⟨by simp, forecast_clamp_noop [tradeA] "ny" (by simp)⟩

/-! Structural lemmas about the state-history loop. -/

/-- The loop only ever appends to the accumulated lists and counters. -/
lemma historyLoop_extends (sorted : List Trade) (limit : Int) :
    ∀ (rest : List Trade) (i : ℕ) (acc : HistoryAcc),
      ∃ h s c n, (historyLoop sorted limit i rest acc).hist = acc.hist ++ h ∧
        (historyLoop sorted limit i rest acc).states = acc.states ++ s ∧
        (historyLoop sorted limit i rest acc).confs = acc.confs ++ c ∧
        (historyLoop sorted limit i rest acc).count = acc.count + n := by
  intro rest
  induction rest with
  | nil => exact fun i acc => ⟨[], [], [], 0, by simp [historyLoop]⟩
  | cons trade rest ih =>
    intro i acc
    simp only [historyLoop]
    split_ifs with h1 h2
    · set st := analyzePsychologicalState (windowAt sorted i) with hst
      set entry : HistoryEntry :=
        { timestamp := trade.entryTime, state := st.state,
          confidence := st.confidence, trigger := getStateTrigger trade,
          ctxTradeId := trade.id, ctxProfitLoss := trade.profitLoss,
          ctxRiskPercentUsed := trade.riskPercentUsed } with hentry
      obtain ⟨h, s, c, n, e1, e2, e3, e4⟩ := ih (i + 1)
        { hist := acc.hist ++ [entry],
          states := acc.states ++ [st.state],
          confs := acc.confs ++ [st.confidence],
          lastState := some st,
          count := acc.count + 1 }
      refine ⟨[entry] ++ h, [st.state] ++ s, [st.confidence] ++ c, 1 + n, ?_, ?_, ?_, ?_⟩
      · rw [e1]; simp
      · rw [e2]; simp
      · rw [e3]; simp
      · rw [e4]
        show acc.count + 1 + n = acc.count + (1 + n)
        omega
    · exact ih (i + 1) acc
    · exact ⟨[], [], [], 0, by simp⟩

/-- A loop started on a non-empty recorded-state accumulator keeps it
non-empty. -/
lemma historyLoop_states_ne (sorted : List Trade) (limit : Int)
    (rest : List Trade) (i : ℕ) (acc : HistoryAcc) (h : acc.states ≠ []) :
    (historyLoop sorted limit i rest acc).states ≠ [] := by
  obtain ⟨hs, s, c, n, _, e2, _, _⟩ := historyLoop_extends sorted limit rest i acc
  rw [e2]
  simp [h]

/-- First iteration of the loop with no previous state and room left in the
history: the event is always recorded. -/
lemma historyLoop_record_step (sorted : List Trade) (limit : Int) (i : ℕ)
    (trade : Trade) (rest : List Trade) (hist : List HistoryEntry)
    (states : List String) (confs : List Int) (count : ℕ)
    (h1 : ((hist : List HistoryEntry).length : Int) < limit) :
    historyLoop sorted limit i (trade :: rest) ⟨hist, states, confs, none, count⟩ =
      historyLoop sorted limit (i + 1) rest
        ⟨hist ++
            [{ timestamp := trade.entryTime,
               state := (analyzePsychologicalState (windowAt sorted i)).state,
               confidence := (analyzePsychologicalState (windowAt sorted i)).confidence,
               trigger := getStateTrigger trade,
               ctxTradeId := trade.id, ctxProfitLoss := trade.profitLoss,
               ctxRiskPercentUsed := trade.riskPercentUsed }],
          states ++ [(analyzePsychologicalState (windowAt sorted i)).state],
          confs ++ [(analyzePsychologicalState (windowAt sorted i)).confidence],
          some (analyzePsychologicalState (windowAt sorted i)), count + 1⟩ := by
  simp [historyLoop, h1]

/-- Length is preserved by the stable insertion. -/
lemma insertByTime_length (x : Trade) :
    ∀ l : List Trade, (insertByTime x l).length = l.length + 1
  | [] => rfl
  | h :: t => by
    rw [insertByTime]
    split_ifs
    · simp [List.length_cons, insertByTime_length x t]
    · rfl

/-- Sorting preserves length. -/
lemma sortByEntryTime_length : ∀ l : List Trade, (sortByEntryTime l).length = l.length
  | [] => rfl
  | h :: t => by
    rw [sortByEntryTime, insertByTime_length, sortByEntryTime_length t]
    rfl

/-- The fold building the key list preserves non-emptiness of its accumulator. -/
lemma firstOccurKeys_fold_ne (l : List String) :
    ∀ acc : List String, acc ≠ [] →
      l.foldl (fun ks s => if s ∈ ks then ks else ks ++ [s]) acc ≠ [] := by
  induction l with
  | nil => intro acc h; simpa using h
  | cons a t ih =>
    intro acc h
    rw [List.foldl_cons]
    split_ifs with h2
    · exact ih acc h
    · exact ih _ (by simp)

/-- A non-empty value list yields a non-empty key list. -/
lemma firstOccurKeys_ne {l : List String} (h : l ≠ []) : firstOccurKeys l ≠ [] := by
  obtain ⟨a, t, rfl⟩ := List.exists_cons_of_ne_nil h
  unfold firstOccurKeys
  rw [List.foldl_cons]
  exact firstOccurKeys_fold_ne t _ (by simp)

/-- jsReduceMax succeeds exactly on non-empty key lists. -/
lemma jsReduceMax_isSome {f : String → ℕ} {l : List String} (h : l ≠ []) :
    (jsReduceMax f l).isSome := by
  obtain ⟨a, t, rfl⟩ := List.exists_cons_of_ne_nil h
  simp [jsReduceMax]

/-- With a non-empty trade list and limit at least 1, the loop records at
least one event. -/
lemma recordedStates_ne {trades : List Trade} {limit : Int} (hne : trades ≠ [])
    (hl : 1 ≤ limit) : recordedStates trades limit ≠ [] := by
  unfold recordedStates historyData
  have hpos : 0 < (sortByEntryTime trades).length := by
    rw [sortByEntryTime_length trades]; exact List.length_pos.mpr hne
  obtain ⟨t0, rest, heq⟩ :=
    List.exists_cons_of_ne_nil (List.length_pos.mp hpos)
  rw [heq, historyLoop_record_step _ _ _ _ _ _ _ _ _ (by simp; omega)]
  exact historyLoop_states_ne _ _ _ _ _ (by simp)

/-- Inversion of analyzeStateHistory on a non-empty trade list. -/
lemma analyzeStateHistory_eq (trades : List Trade) (limit : Int)
    (hne : trades ≠ []) :
    analyzeStateHistory trades limit =
      (jsReduceMax (fun s => (historyData trades limit).states.count s)
          (firstOccurKeys (historyData trades limit).states)).map
        (fun m =>
          { history := (historyData trades limit).hist.take limit.toNat,
            summary := { totalChanges := (historyData trades limit).count,
                         mostCommonState := m,
                         averageConfidence :=
                           averageConfidenceOf (historyData trades limit).confs,
                         volatility :=
                           (jsRoundSqrt (varianceOf (historyData trades limit).confs) : ℚ) /
                             100 } }) := by
  have hne2 : trades.isEmpty = false := by simpa [List.isEmpty_iff] using hne
  simp only [analyzeStateHistory, hne2, Bool.false_eq_true, if_false]
  cases h : jsReduceMax (fun s => (historyData trades limit).states.count s)
      (firstOccurKeys (historyData trades limit).states) <;> simp [h]

/-- analyzeStateHistory succeeds on the empty list and whenever the limit
is at least 1. -/
lemma analyzeStateHistory_isSome {trades : List Trade} {limit : Int}
    (h : trades = [] ∨ 1 ≤ limit) : (analyzeStateHistory trades limit).isSome := by
  by_cases hne : trades = []
  · subst hne; simp [analyzeStateHistory]
  · have hl : 1 ≤ limit := h.resolve_left hne
    rw [analyzeStateHistory_eq trades limit hne]
    have hk : firstOccurKeys (historyData trades limit).states ≠ [] :=
      firstOccurKeys_ne (recordedStates_ne hne hl)
    obtain ⟨m, hm⟩ := Option.isSome_iff_exists.mp (jsReduceMax_isSome hk)
    rw [hm]
    rfl

/-- analyzePerformanceInsights succeeds on every trade list. -/
lemma analyzePerformanceInsights_isSome (trades : List Trade) (period : String) :
    (analyzePerformanceInsights trades period).isSome := by
  by_cases hne : trades = []
  · subst hne; simp [analyzePerformanceInsights]
  · have hne2 : trades.isEmpty = false := by simpa [List.isEmpty_iff] using hne
    have hk : firstOccurKeys (trades.map Trade.session) ≠ [] :=
      firstOccurKeys_ne (by simpa using hne)
    obtain ⟨b, hb⟩ := Option.isSome_iff_exists.mp
      (@jsReduceMax_isSome (fun s => (trades.map Trade.session).count s) _ hk)
    simp only [analyzePerformanceInsights, hne2, Bool.false_eq_true, if_false,
      bestSessionOf, hb]
    rfl

/-! Claim C2. -/

/-- C2 counterexample: with a non-empty trade list and limit 0 the loop
records nothing, and analyzeStateHistory hits a reduce of an empty key
array with no initial value, i.e. the original code throws. -/
theorem stateHistory_limit_zero_throws : analyzeStateHistory [tradeA] 0 = none := by
  rfl

/-- C2 amended: analyzeStateHistory is total for the empty trade list and
for every limit of at least 1, and analyzePerformanceInsights is total for
every trade list; totality fails only for a non-empty trade list with
limit 0 or below. -/
theorem analytics_totality_amended (trades : List Trade) (limit : Int)
    (period : String) :
    ((trades = [] ∨ 1 ≤ limit) → (analyzeStateHistory trades limit).isSome) ∧
    (analyzePerformanceInsights trades period).isSome :=
  ⟨fun h => analyzeStateHistory_isSome h,
   analyzePerformanceInsights_isSome trades period⟩

/-- Witness for C2 amended at a one-trade list with limit 1. -/
theorem analytics_totality_amended_witness :
    (analyzeStateHistory [tradeA] 1).isSome ∧
    (analyzePerformanceInsights [tradeA] "MONTH").isSome :=
  ⟨(analytics_totality_amended [tradeA] 1 "MONTH").1 (Or.inr (by norm_num)),
   (analytics_totality_amended [tradeA] 1 "MONTH").2⟩

/-! Claim C3. -/

/-- C3: the generator called directly on an empty trade list returns the
single OPPORTUNITY insight with the fixed recommendation, and the service
wrapper getPerformanceInsights returns that very result unchanged — its
insights array has one entry, never the empty array with a top-level
summary string that the integration tests expect. -/
theorem insights_wrapper_empty_divergence :
    getPerformanceInsightsCore [] "30d" =
      some { period := "30d",
             insights := [{ type := "OPPORTUNITY",
                            description := "No trading data available for analysis",
                            confidence := 100, impact := "LOW" }],
             patterns := [],
             recommendations := ["Start trading to generate performance insights"] } ∧
    (getPerformanceInsightsCore [] "30d").map (fun r => r.insights.length) = some 1 :=
  ⟨rfl, rfl⟩

/-- Loop invariant: the change counter equals the history length, and the
history length never exceeds the limit once below it. -/
lemma historyLoop_count_inv (sorted : List Trade) (limit : Int) :
    ∀ (rest : List Trade) (i : ℕ) (acc : HistoryAcc),
      acc.count = acc.hist.length → (acc.hist.length : Int) ≤ limit →
      (historyLoop sorted limit i rest acc).count =
          (historyLoop sorted limit i rest acc).hist.length ∧
        ((historyLoop sorted limit i rest acc).hist.length : Int) ≤ limit := by
  intro rest
  induction rest with
  | nil => exact fun i acc hc hl => by simpa [historyLoop] using ⟨hc, hl⟩
  | cons trade rest ih =>
    intro i acc hc hl
    simp only [historyLoop]
    split_ifs with h1 h2
    · refine ih (i + 1) _ ?_ ?_
      · simp [hc]
      · simp only [List.length_append, List.length_cons, List.length_nil]
        push_cast
        push_cast at h1
        omega
    · exact ih (i + 1) acc hc hl
    · exact ⟨hc, hl⟩

/-! Claim C10. -/

/-- C10: for a non-empty trade list and limit at least 1, the returned
totalChanges equals the number of history entries (the first processed
trade always records an event, so the initial event is counted as a
change), and the history never exceeds the limit. -/
theorem history_totalChanges_eq_length (trades : List Trade) (limit : Int)
    (hne : trades ≠ []) (hl : 1 ≤ limit) :
    ∀ r, analyzeStateHistory trades limit = some r →
      r.summary.totalChanges = r.history.length ∧
      (r.history.length : Int) ≤ limit := by
  intro r hr
  rw [analyzeStateHistory_eq trades limit hne] at hr
  obtain ⟨hcnt, hlen⟩ := historyLoop_count_inv (sortByEntryTime trades) limit
    (sortByEntryTime trades) 0 ⟨[], [], [], none, 0⟩ rfl (by simp; omega)
  cases h : jsReduceMax (fun s => (historyData trades limit).states.count s)
      (firstOccurKeys (historyData trades limit).states) with
  | none => rw [h] at hr; simp at hr
  | some m =>
    rw [h] at hr
    simp only [Option.map_some', Option.some_inj] at hr
    subst hr
    have hcnt2 : (historyData trades limit).count = (historyData trades limit).hist.length := hcnt
    have hlen2 : ((historyData trades limit).hist.length : Int) ≤ limit := hlen
    constructor
    · simp only [List.length_take]
      rw [hcnt2]
      omega
    · simp only [List.length_take]
      push_cast
      omega

/-- Witness for C10 at a one-trade list with limit 1. -/
theorem history_totalChanges_eq_length_witness :
    ∃ r, analyzeStateHistory [tradeA] 1 = some r ∧
      r.summary.totalChanges = r.history.length ∧ (r.history.length : Int) ≤ 1 := by
  obtain ⟨r, hr⟩ := Option.isSome_iff_exists.mp
    (@analyzeStateHistory_isSome [tradeA] 1 (Or.inr (by norm_num)))
  exact ⟨r, hr,
    history_totalChanges_eq_length [tradeA] 1 (by simp) (by norm_num) r hr⟩

/-- The JS reduce picking the key with the strictly larger value returns
the last key attaining the maximum: scanning the keys in reverse, the
first whose value dominates all values. -/
lemma foldl_max_lastArgmax (f : String → ℕ) :
    ∀ (t : List String) (a : String),
      (a :: t).reverse.find? (fun x => (a :: t).all (fun y => f y ≤ f x)) =
        some (t.foldl (fun x y => if f y < f x then x else y) a) := by
  intro t
  induction t with
  | nil =>
    intro a
    simp
  | cons b t2 ih =>
    intro a
    rw [List.foldl_cons]
    by_cases hab : f b < f a
    · rw [show (if f b < f a then a else b) = a from if_pos hab, ← ih a]
      have hp : (fun x => (a :: b :: t2).all (fun y => f y ≤ f x)) =
          (fun x => (a :: t2).all (fun y => f y ≤ f x)) := by
        funext x
        simp only [List.all_cons]
        by_cases h1 : f a ≤ f x
        · have h2 : f b ≤ f x := le_trans (le_of_lt hab) h1
          simp [h1, h2]
        · simp [h1]
      rw [hp]
      rw [show (a :: b :: t2).reverse = t2.reverse ++ [b, a] by simp,
        show (a :: t2).reverse = t2.reverse ++ [a] by simp]
      rw [List.find?_append, List.find?_append]
      congr 1
      rw [List.find?_cons_of_neg]
      simp only [List.all_cons, Bool.and_eq_true, decide_eq_true_eq]
      intro h
      exact absurd h.1 (not_le.mpr hab)
    · push_neg at hab
      rw [show (if f b < f a then a else b) = b from if_neg (not_lt.mpr hab), ← ih b]
      have hp : (fun x => (a :: b :: t2).all (fun y => f y ≤ f x)) =
          (fun x => (b :: t2).all (fun y => f y ≤ f x)) := by
        funext x
        simp only [List.all_cons]
        by_cases h1 : f b ≤ f x
        · have h2 : f a ≤ f x := le_trans hab h1
          simp [h1, h2]
        · simp [h1]
      rw [hp]
      rw [show (a :: b :: t2).reverse = (b :: t2).reverse ++ [a] by simp]
      rw [List.find?_append]
      cases hf : (b :: t2).reverse.find? (fun x => (b :: t2).all (fun y => f y ≤ f x)) with
      | some v => simp [hf]
      | none =>
        have hnb : ¬ ((b :: t2).all (fun y => decide (f y ≤ f b)) = true) := by
          have := List.find?_eq_none.mp hf b (by simp)
          simpa using this
        have hna : ¬ ((b :: t2).all (fun y => decide (f y ≤ f a)) = true) := by
          intro h
          have hall := List.all_eq_true.mp h
          have hba : f b ≤ f a := by simpa using hall b (by simp)
          have heq : f a = f b := le_antisymm hab hba
          apply hnb
          apply List.all_eq_true.mpr
          intro y hy
          have hya := hall y hy
          simp only [decide_eq_true_eq] at hya ⊢
          omega
        have hfa : List.find? (fun x => (b :: t2).all fun y => decide (f y ≤ f x)) [a] =
            none :=
          List.find?_eq_none.mpr (by intro x hx; simp at hx; subst hx; simpa using hna)
        rw [hfa]
        rfl

/-- jsReduceMax computes the lastArgmax of the key list. -/
lemma jsReduceMax_eq_lastArgmax (f : String → ℕ) (l : List String) :
    jsReduceMax f l = lastArgmax f l := by
  cases l with
  | nil => rfl
  | cons a t => exact (foldl_max_lastArgmax f t a).symm

/-! Claim C5. -/

/-- A losing trade with moderate risk followed by a winning trade with
high risk: the two recorded states FRUSTRATED and GREEDY tie at one
event each. -/
def tradeL2a : Trade := ⟨1, 1, -10, 2, 1, 0, "NY", false, false⟩

/-- Second trade of the tie fixture. -/
def tradeL2b : Trade := ⟨2, 2, 10, 5, 1, 0, "NY", false, false⟩

/-- C5 counterexample: on the tie fixture both recorded states occur once,
FRUSTRATED is encountered first, yet mostCommonState is GREEDY — the tie
goes to the last encountered key, not the first. -/
theorem mostCommonState_not_first_encountered :
    recordedStates [tradeL2a, tradeL2b] 10 = ["FRUSTRATED", "GREEDY"] ∧
    firstOccurKeys (recordedStates [tradeL2a, tradeL2b] 10) =
      ["FRUSTRATED", "GREEDY"] ∧
    (recordedStates [tradeL2a, tradeL2b] 10).count "FRUSTRATED" =
      (recordedStates [tradeL2a, tradeL2b] 10).count "GREEDY" ∧
    (analyzeStateHistory [tradeL2a, tradeL2b] 10).map
      (fun r => r.summary.mostCommonState) = some "GREEDY" := by
  have hs : recordedStates [tradeL2a, tradeL2b] 10 = ["FRUSTRATED", "GREEDY"] := by
    norm_num [recordedStates, historyData, historyLoop, sortByEntryTime, insertByTime,
      windowAt, analyzePsychologicalState, winRateOf, avgRiskUsedOf,
      avgTargetAchievedOf, jsRound, tradeL2a, tradeL2b]
  refine ⟨hs, by rw [hs]; simp [firstOccurKeys], by rw [hs]; simp, ?_⟩
  norm_num [analyzeStateHistory, historyData, historyLoop, sortByEntryTime, insertByTime,
    firstOccurKeys, jsReduceMax, windowAt, analyzePsychologicalState, winRateOf,
    avgRiskUsedOf, avgTargetAchievedOf, getStateTrigger, jsRound, tradeL2a, tradeL2b]
  simp

/-- C5 amended: in both count-maximisations ties are broken in favour of
the LAST encountered key: mostCommonState is the last state (in first
occurrence key order) whose recorded-event count dominates all counts, and
bestSession likewise is the last such session key. -/
theorem countMax_tiebreak_last_amended :
    (∀ (trades : List Trade) (limit : Int), trades ≠ [] →
      (analyzeStateHistory trades limit).map (fun r => r.summary.mostCommonState) =
        lastArgmax (fun s => (recordedStates trades limit).count s)
          (firstOccurKeys (recordedStates trades limit))) ∧
    (∀ trades : List Trade,
      bestSessionOf trades =
        lastArgmax (fun s => (trades.map Trade.session).count s)
          (firstOccurKeys (trades.map Trade.session))) := by
  constructor
  · intro trades limit hne
    rw [analyzeStateHistory_eq trades limit hne]
    simp only [recordedStates, ← jsReduceMax_eq_lastArgmax]
    cases h : jsReduceMax (fun s => (historyData trades limit).states.count s)
        (firstOccurKeys (historyData trades limit).states) <;> simp [h]
  · intro trades
    rw [bestSessionOf, jsReduceMax_eq_lastArgmax]

/-- Witness for C5 amended at the tie fixture and a one-trade list. -/
theorem countMax_tiebreak_last_amended_witness :
    ((analyzeStateHistory [tradeL2a, tradeL2b] 10).map
        (fun r => r.summary.mostCommonState) =
      lastArgmax (fun s => (recordedStates [tradeL2a, tradeL2b] 10).count s)
        (firstOccurKeys (recordedStates [tradeL2a, tradeL2b] 10))) ∧
    bestSessionOf [tradeA] =
      lastArgmax (fun s => ([tradeA].map Trade.session).count s)
        (firstOccurKeys ([tradeA].map Trade.session)) :=
  ⟨countMax_tiebreak_last_amended.1 [tradeL2a, tradeL2b] 10 (by simp),
   countMax_tiebreak_last_amended.2 [tradeA]⟩

/-- averageConfidenceOf computed as the rounding of the exact mean. -/
lemma averageConfidenceOf_eq (confs : List Int) (h : 0 < confs.length) :
    averageConfidenceOf confs =
      jsRound ((confs.map (fun c => (c : ℚ))).sum / confs.length) := by
  unfold averageConfidenceOf
  rw [if_pos h, foldl_add_map (fun c => (c : ℚ)) confs 0, zero_add]

/-- The variance computed by analyzeStateHistory is the population variance
about the rounded mean. -/
lemma varianceOf_eq (confs : List Int) :
    varianceOf confs = confVarianceRounded confs := by
  by_cases h : 0 < confs.length
  · unfold varianceOf confVarianceRounded
    rw [if_pos h, averageConfidenceOf_eq confs h,
      foldl_add_map (fun c => ((c : ℚ) -
        (jsRound ((confs.map (fun c => (c : ℚ))).sum / confs.length) : ℚ)) ^ 2) confs 0,
      zero_add]
  · have hnil : confs = [] := List.length_eq_zero.mp (by omega)
    subst hnil
    simp [varianceOf, confVarianceRounded]

/-! Claim C6. -/

/-- Four trades whose recorded confidences are 20, 20, 20, 35: the mean
23.75 rounds to 24, and rounding the mean before taking squared deviations
changes the reported volatility. -/
def tsC6 : List Trade :=
  [⟨1, 1, -1, 2, 1, 0, "NY", false, false⟩,
   ⟨2, 2, -1, 5, 1, 0, "NY", false, false⟩,
   ⟨3, 3, -1, 2, 1, 0, "NY", false, false⟩,
   ⟨4, 4, 1, 5, 1, 0, "NY", false, false⟩]

/-- Nat.sqrt 169 evaluated through its characterisation. -/
lemma natSqrt169 : Nat.sqrt (Int.toNat 169) = 13 := by
  rw [show Int.toNat 169 = 169 from rfl]
  exact natSqrt_eq (by norm_num) (by norm_num)

/-- Nat.sqrt 168 evaluated through its characterisation. -/
lemma natSqrt168 : Nat.sqrt (Int.toNat 168) = 12 := by
  rw [show Int.toNat 168 = 168 from rfl]
  exact natSqrt_eq (by norm_num) (by norm_num)

/-- C6 counterexample: on the four-trade fixture the code reports
volatility 0.07, while the claimed formula — the 2-decimal rounding of
stdDev(confidences)/100 with the population standard deviation taken about
the exact arithmetic mean — yields 0.06. -/
theorem volatility_exact_mean_fails :
    recordedConfs tsC6 50 = [20, 20, 20, 35] ∧
    (analyzeStateHistory tsC6 50).map (fun r => r.summary.volatility) =
      some (7/100) ∧
    volatilityFromVariance (confVarianceExact (recordedConfs tsC6 50)) = 6/100 := by
  have hconfs : recordedConfs tsC6 50 = [20, 20, 20, 35] := by
    norm_num [recordedConfs, historyData, historyLoop, sortByEntryTime, insertByTime,
      windowAt, analyzePsychologicalState, winRateOf, avgRiskUsedOf,
      avgTargetAchievedOf, jsRound, tsC6]
    simp
  refine ⟨hconfs, ?_, ?_⟩
  · norm_num [analyzeStateHistory, historyData, historyLoop, sortByEntryTime,
      insertByTime, firstOccurKeys, jsReduceMax, windowAt, analyzePsychologicalState,
      winRateOf, avgRiskUsedOf, avgTargetAchievedOf, getStateTrigger, jsRound,
      jsRoundSqrt, averageConfidenceOf, varianceOf, tsC6]
    simp
    norm_num [natSqrt169]
  · rw [hconfs]
    norm_num [volatilityFromVariance, confVarianceExact, popVariance, jsRoundSqrt]
    rw [natSqrt168]
    norm_num

/-- C6 amended: the reported volatility is the 2-decimal rounding of
stdDev/100 where the variance is the mean squared deviation of the
recorded confidences from the ROUNDED mean averageConfidence, not from the
exact arithmetic mean. -/
theorem volatility_rounded_mean_amended (trades : List Trade) (limit : Int)
    (hne : trades ≠ []) :
    ∀ r, analyzeStateHistory trades limit = some r →
      r.summary.volatility =
        volatilityFromVariance (confVarianceRounded (recordedConfs trades limit)) := by
  intro r hr
  rw [analyzeStateHistory_eq trades limit hne] at hr
  cases h : jsReduceMax (fun s => (historyData trades limit).states.count s)
      (firstOccurKeys (historyData trades limit).states) with
  | none => rw [h] at hr; simp at hr
  | some m =>
    rw [h] at hr
    simp only [Option.map_some', Option.some_inj] at hr
    subst hr
    show (jsRoundSqrt (varianceOf (historyData trades limit).confs) : ℚ) / 100 = _
    rw [varianceOf_eq]
    rfl

/-- Witness for C6 amended at the four-trade fixture. -/
theorem volatility_rounded_mean_amended_witness :
    ∃ r, analyzeStateHistory tsC6 50 = some r ∧
      r.summary.volatility =
        volatilityFromVariance (confVarianceRounded (recordedConfs tsC6 50)) := by
  obtain ⟨r, hr⟩ := Option.isSome_iff_exists.mp
    (@analyzeStateHistory_isSome tsC6 50 (Or.inr (by norm_num)))
  exact ⟨r, hr, volatility_rounded_mean_amended tsC6 50 (by simp [tsC6]) r hr⟩

/-- A conditional overwrite with the larger value is a max. -/
lemma if_lt_eq_max (a b : ℚ) : (if a < b then b else a) = max a b := by
  by_cases h : a < b
  · rw [if_pos h, max_eq_right (le_of_lt h)]
  · rw [if_neg h, max_eq_left (not_lt.mp h)]

/-- Running total accumulated by the drawdown loop. -/
lemma drawdownStep_fold_run : ∀ (pls : List ℚ) (s : ℚ × ℚ × ℚ),
    (pls.foldl drawdownStep s).2.2 = s.2.2 + pls.sum
  | [], s => by simp
  | p :: t, s => by
    rw [List.foldl_cons, drawdownStep_fold_run t _]
    show (s.2.2 + p) + t.sum = s.2.2 + (p :: t).sum
    rw [List.sum_cons]
    ring

/-- Folding max over a list extended by one element. -/
lemma foldl_max_append (l : List ℚ) (a y : ℚ) :
    ((l ++ [y]).foldl max a) = max (l.foldl max a) y := by
  rw [List.foldl_append]
  rfl

/-- The running sums of a list extended by one trade. -/
lemma runningSums_append (l : List ℚ) (x : ℚ) :
    runningSums (l ++ [x]) = runningSums l ++ [(l ++ [x]).sum] := by
  unfold runningSums
  rw [List.length_append, List.length_singleton, List.range_succ, List.map_append]
  congr 1
  · apply List.map_congr_left
    intro i hi
    rw [List.mem_range] at hi
    rw [List.take_append_of_le_length (by omega)]
  · rw [List.map_singleton, List.take_of_length_le (by simp)]

/-- Length of the running-sum list. -/
lemma runningSums_length (pls : List ℚ) : (runningSums pls).length = pls.length := by
  simp [runningSums]

/-- The per-step drawdowns of a list extended by one trade. -/
lemma drawdownsSpec_append (l : List ℚ) (x : ℚ) :
    drawdownsSpec (l ++ [x]) = drawdownsSpec l ++
      [(runningSums (l ++ [x])).foldl max 0 - (l ++ [x]).sum] := by
  unfold drawdownsSpec
  rw [List.length_append, List.length_singleton, List.range_succ, List.map_append]
  congr 1
  · apply List.map_congr_left
    intro i hi
    rw [List.mem_range] at hi
    rw [runningSums_append,
      List.take_append_of_le_length (by rw [runningSums_length]; omega),
      List.take_append_of_le_length (by omega)]
  · rw [List.map_singleton,
      List.take_of_length_le (by rw [runningSums_length]; simp),
      List.take_of_length_le (by simp)]

/-- The drawdown loop computes, in given order: the running peak as the max
of the running sums (seeded with 0), the max drawdown as the max of the
per-step drawdowns, and the running total as the sum. -/
lemma drawdown_fold_eq (pls : List ℚ) :
    (pls.foldl drawdownStep (0, 0, 0)).1 = (runningSums pls).foldl max 0 ∧
    (pls.foldl drawdownStep (0, 0, 0)).2.1 = maxDrawdownSpec pls ∧
    (pls.foldl drawdownStep (0, 0, 0)).2.2 = pls.sum := by
  induction pls using List.reverseRecOn with
  | nil => refine ⟨rfl, rfl, rfl⟩
  | append_singleton l x ih =>
    obtain ⟨ih1, ih2, ih3⟩ := ih
    rw [List.foldl_append, List.foldl_cons, List.foldl_nil]
    have hrun : (drawdownStep (l.foldl drawdownStep (0, 0, 0)) x).2.2 = (l ++ [x]).sum := by
      show (l.foldl drawdownStep (0, 0, 0)).2.2 + x = _
      rw [ih3, List.sum_append, List.sum_cons, List.sum_nil]
      ring
    have hpeak : (drawdownStep (l.foldl drawdownStep (0, 0, 0)) x).1 =
        (runningSums (l ++ [x])).foldl max 0 := by
      show (if (l.foldl drawdownStep (0, 0, 0)).1 <
            (l.foldl drawdownStep (0, 0, 0)).2.2 + x then
              (l.foldl drawdownStep (0, 0, 0)).2.2 + x
            else (l.foldl drawdownStep (0, 0, 0)).1) = _
      rw [ih1, ih3, runningSums_append, foldl_max_append, if_lt_eq_max,
        List.sum_append, List.sum_cons, List.sum_nil, add_zero]
    refine ⟨hpeak, ?_, hrun⟩
    show (if (l.foldl drawdownStep (0, 0, 0)).2.1 <
          (drawdownStep (l.foldl drawdownStep (0, 0, 0)) x).1 -
            ((l.foldl drawdownStep (0, 0, 0)).2.2 + x) then
            (drawdownStep (l.foldl drawdownStep (0, 0, 0)) x).1 -
              ((l.foldl drawdownStep (0, 0, 0)).2.2 + x)
          else (l.foldl drawdownStep (0, 0, 0)).2.1) = _
    rw [hpeak, ih2, ih3, if_lt_eq_max]
    unfold maxDrawdownSpec
    rw [drawdownsSpec_append, foldl_max_append, List.sum_append, List.sum_cons,
      List.sum_nil, add_zero]

/-- The drawdown accumulator equals its per-step specification. -/
lemma maxDrawdownRaw_eq_spec (pls : List ℚ) :
    maxDrawdownRaw pls = maxDrawdownSpec pls := (drawdown_fold_eq pls).2.1

/-! Claim C7. -/

/-- Three trades with profitLoss 100, -150, 50 in entry order. -/
def tsC7 : List Trade :=
  [⟨1, 1, 100, 1, 1, 0, "NY", false, false⟩,
   ⟨2, 2, -150, 1, 1, 0, "NY", false, false⟩,
   ⟨3, 3, 50, 1, 1, 0, "NY", false, false⟩]

/-- C7: maxDrawdown processes the trades in the given order, accumulating
a running total and a running peak, with the per-step drawdown peak minus
running total and the result the maximum observed; on the profit-loss
sequence 100, -150, 50 the running sums are 100, -50, 0, the drawdowns
0, 150, 100, and the reported maxDrawdown is exactly 150. -/
theorem maxDrawdown_given_order_spec :
    (∀ pls : List ℚ, maxDrawdownRaw pls = maxDrawdownSpec pls) ∧
    runningSums [100, -150, 50] = [100, -50, 0] ∧
    drawdownsSpec [100, -150, 50] = [0, 150, 100] ∧
    maxDrawdownRaw [100, -150, 50] = 150 ∧
    (calculateRiskMetrics tsC7).maxDrawdown = 150 := by
  refine ⟨maxDrawdownRaw_eq_spec, ?_, ?_, ?_, ?_⟩
  · norm_num [runningSums, List.range_succ]
  · norm_num [drawdownsSpec, runningSums, List.range_succ]
  · norm_num [maxDrawdownRaw, drawdownStep]
  · norm_num [calculateRiskMetrics, tsC7, maxDrawdownRaw, drawdownStep,
      jsRound2, jsRound]

/-- Folding max from 0 over non-positive values stays 0. -/
lemma foldl_max_nonpos : ∀ (l : List ℚ), (∀ s ∈ l, s ≤ 0) → l.foldl max 0 = 0
  | [], _ => rfl
  | a :: t, h => by
    rw [List.foldl_cons, max_eq_left (h a (by simp))]
    exact foldl_max_nonpos t (fun s hs => h s (by simp [hs]))

/-- Duality between folding min and folding max over negated values. -/
lemma foldl_max_neg : ∀ (l : List ℚ) (a : ℚ),
    (l.map (fun s => -s)).foldl max (-a) = -(l.foldl min a)
  | [], a => by simp
  | s :: t, a => by
    rw [List.map_cons, List.foldl_cons, List.foldl_cons, max_neg_neg]
    exact foldl_max_neg t (min a s)

/-- A fold of min is a lower bound of the list and of its seed. -/
lemma foldl_min_le : ∀ (l : List ℚ) (a : ℚ),
    (∀ s ∈ l, l.foldl min a ≤ s) ∧ l.foldl min a ≤ a
  | [], a => ⟨by simp, le_refl a⟩
  | s :: t, a => by
    obtain ⟨h1, h2⟩ := foldl_min_le t (min a s)
    rw [List.foldl_cons]
    refine ⟨?_, le_trans h2 (min_le_left a s)⟩
    intro x hx
    rcases List.mem_cons.mp hx with rfl | hx
    · exact le_trans h2 (min_le_right a x)
    · exact h1 x hx

/-- A fold of min is attained in the list or is the seed. -/
lemma foldl_min_mem : ∀ (l : List ℚ) (a : ℚ),
    l.foldl min a = a ∨ l.foldl min a ∈ l
  | [], a => Or.inl rfl
  | s :: t, a => by
    rw [List.foldl_cons]
    rcases foldl_min_mem t (min a s) with h | h
    · rcases min_choice a s with hm | hm
      · exact Or.inl (by rw [h, hm])
      · exact Or.inr (by rw [h, hm]; exact List.mem_cons_self s t)
    · exact Or.inr (List.mem_cons_of_mem s h)

/-! Claim C9. -/

/-- A single trade losing a tenth of a cent: the drawdown accumulator is
0.001 but the reported 2-decimal maxDrawdown rounds to 0. -/
def tradeC9 : Trade := ⟨1, 1, -(1/1000), 1, 1, 0, "NY", false, false⟩

/-- C9 counterexample: with one trade of profitLoss -0.001 every cumulative
P&L is non-positive, the minimum cumulative P&L has absolute value 0.001,
yet the reported maxDrawdown is 0 — the claimed equality fails because the
returned field is rounded to 2 decimals. -/
theorem drawdown_reported_rounding_fails :
    runningSums ([tradeC9].map Trade.profitLoss) = [-(1/1000)] ∧
    (∀ s ∈ runningSums ([tradeC9].map Trade.profitLoss), s ≤ 0) ∧
    (calculateRiskMetrics [tradeC9]).maxDrawdown = 0 ∧
    |(-(1/1000) : ℚ)| ≠ 0 := by
  have hs : runningSums ([tradeC9].map Trade.profitLoss) = [-(1/1000)] := by
    norm_num [runningSums, List.range_succ, tradeC9]
  refine ⟨hs, ?_, ?_, by norm_num⟩
  · rw [hs]; intro s hsm; simp at hsm; rw [hsm]; norm_num
  · norm_num [calculateRiskMetrics, tradeC9, maxDrawdownRaw, drawdownStep,
      jsRound2, jsRound]

/-- C9 amended: the peak starts at 0, so for a non-empty trade list whose
cumulative P&L is never positive the drawdown accumulator equals the
absolute value of the minimum cumulative P&L (not 0), and the reported
maxDrawdown is that value rounded to 2 decimals. -/
theorem drawdown_allloss_amended (trades : List Trade) (hne : trades ≠ [])
    (h : ∀ s ∈ runningSums (trades.map Trade.profitLoss), s ≤ 0) :
    ∃ m, m ∈ runningSums (trades.map Trade.profitLoss) ∧
      (∀ s ∈ runningSums (trades.map Trade.profitLoss), m ≤ s) ∧
      maxDrawdownRaw (trades.map Trade.profitLoss) = -m ∧
      (calculateRiskMetrics trades).maxDrawdown = jsRound2 (-m) := by
  have hne2 : trades.isEmpty = false := by simpa [List.isEmpty_iff] using hne
  set pls := trades.map Trade.profitLoss with hpls
  set sums := runningSums pls with hsums
  have hraw : maxDrawdownRaw pls = -(sums.foldl min 0) := by
    rw [maxDrawdownRaw_eq_spec]
    unfold maxDrawdownSpec
    have hdds : drawdownsSpec pls = sums.map (fun s => -s) := by
      have hr : sums.map (fun s => -s) = (List.range pls.length).map
          (fun i => -((pls.take (i + 1)).sum)) := by
        rw [hsums]
        unfold runningSums
        rw [List.map_map]
        rfl
      rw [hr]
      unfold drawdownsSpec
      apply List.map_congr_left
      intro i hi
      have hpk : ((runningSums pls).take (i + 1)).foldl max 0 = 0 := by
        apply foldl_max_nonpos
        intro s hs
        exact h s (List.mem_of_mem_take hs)
      rw [hpk]
      ring
    have hdual := foldl_max_neg sums 0
    rw [neg_zero] at hdual
    rw [hdds, hdual]
  have hbound := (foldl_min_le sums 0).1
  have hmem : sums.foldl min 0 ∈ sums := by
    rcases foldl_min_mem sums 0 with h0 | hm
    · obtain ⟨s0, hs0⟩ := List.exists_mem_of_ne_nil sums
        (by
          have : sums.length = trades.length := by
            rw [hsums, runningSums_length, hpls, List.length_map]
          intro hnil
          rw [hnil] at this
          exact hne (List.length_eq_zero.mp this.symm))
      have hs00 : s0 = 0 := le_antisymm (h s0 hs0) (by rw [← h0]; exact hbound s0 hs0)
      rw [h0, ← hs00]
      exact hs0
    · exact hm
  refine ⟨sums.foldl min 0, hmem, hbound, hraw, ?_⟩
  show (calculateRiskMetrics trades).maxDrawdown = _
  simp only [calculateRiskMetrics, hne2, Bool.false_eq_true, if_false]
  rw [← hpls, hraw]

/-- Witness for C9 amended at the tenth-of-a-cent loss fixture. -/
theorem drawdown_allloss_amended_witness :
    ∃ m, m ∈ runningSums ([tradeC9].map Trade.profitLoss) ∧
      (∀ s ∈ runningSums ([tradeC9].map Trade.profitLoss), m ≤ s) ∧
      maxDrawdownRaw ([tradeC9].map Trade.profitLoss) = -m ∧
      (calculateRiskMetrics [tradeC9]).maxDrawdown = jsRound2 (-m) :=
  drawdown_allloss_amended [tradeC9] (by simp)
    (by
      intro s hs
      norm_num [runningSums, List.range_succ, tradeC9] at hs
      rw [hs]
      norm_num)

end Zentra
